import Mathlib

/-!
Verification of the real-time audio ingestion, mixing, rolling-buffer and
Ogg-Opus packaging core of the `rust-discord-record` repository, via a shallow
embedding of the relevant Rust functions (`src/encode.rs`, `src/lookback.rs`,
`src/receiver.rs`, `src/tts.rs`) into Lean.

Bytes are modelled as `Nat` (values < 256), PCM sample buffers (`[i16; 1920]`)
as functions `Fin 1920 → Int`, machine integer arithmetic with explicit
clamping where the Rust code saturates, and `Instant` timestamps as `Int`
millisecond values. Fallible Opus encoding is a function into
`Except Unit Frame`; `.unwrap()` on an `Err` (a task panic) is modelled by
propagating the `error` value.
-/

namespace DiscordRecord

/-! ## Definitions: `src/encode.rs` — the Ogg-Opus packager -/

/-- `byteorder::LittleEndian::write_u32`: the four little-endian bytes of a
32-bit value. -/
def writeU32LE (n : Nat) : List Nat :=
  [n % 256, (n / 256) % 256, (n / 65536) % 256, (n / 16777216) % 256]

/-- `const fn to_samples<const S_PS: u32>(ms: u32)` in `encode.rs`:
`((S_PS * ms) / 1000) as usize`. -/
def to_samples (sps ms : Nat) : Nat := (sps * ms) / 1000

/-- `FRAME_TIME_MS` in `encode.rs`. -/
def FRAME_TIME_MS : Nat := 20

/-- `OGG_OPUS_SPS` in `encode.rs`. -/
def OGG_OPUS_SPS : Nat := 48000

/-- `frame_samples` in `encode.rs`: `to_samples::<S_PS>(FRAME_TIME_MS)`. -/
def frame_samples (sps : Nat) : Nat := to_samples sps FRAME_TIME_MS

/-- The closure `calc_samples` in `encode.rs`:
`(counter as usize) * frame_samples`. -/
def calc_samples (sps counter : Nat) : Nat := counter * frame_samples sps

/-- `calc_sr_u64` in `encode.rs`: `(val * dest_sr as u64) / (org_sr as u64)`. -/
def calc_sr_u64 (val orgSr destSr : Nat) : Nat := (val * destSr) / orgSr

/-- `const fn granule<const S_PS: u32>(val: usize)` in `encode.rs`. -/
def granule (sps val : Nat) : Nat := calc_sr_u64 val sps OGG_OPUS_SPS

/-- The granule position the packager assigns to the data packet with
zero-based index `i`: `granule::<S_PS>(calc_samples((i + 1) as u32))`. -/
def dataPacketGranule (sps i : Nat) : Nat := granule sps (calc_samples sps (i + 1))

/-- `ogg::PacketWriteEndInfo`. -/
inductive PacketWriteEndInfo where
  | normalPacket
  | endPage
  | endStream
deriving DecidableEq, Repr, Inhabited

/-- `fn is_end_of_stream(end: bool)` in `encode.rs`. -/
def is_end_of_stream (e : Bool) : PacketWriteEndInfo :=
  if e then .endStream else .normalPacket

/-- One call to `ogg::PacketWriter::write_packet`: payload bytes, end info and
granule position. -/
structure PacketWrite where
  payload : List Nat
  endInfo : PacketWriteEndInfo
  granulePos : Nat
deriving DecidableEq, Repr, Inhabited

/-- The `opus_head` 19-byte identification header of `encode.rs`, after the
two `LittleEndian::write` patches (pre-skip `0` at offsets 10–11, sample rate
at offsets 12–15). Bytes 0–7 are ASCII `OpusHead`. -/
def opusHead (sps numChannels : Nat) : List Nat :=
  [79, 112, 117, 115, 72, 101, 97, 100, 1, numChannels, 0, 0]
    ++ writeU32LE sps ++ [0, 0, 0]

/-- The ASCII bytes of `OpusTags`. -/
def opusTagsMagic : List Nat := [79, 112, 117, 115, 84, 97, 103, 115]

/-- The `opus_tags` comment-header payload built by `encode.rs`:
`OpusTags`, 4-byte little-endian vendor-string length, the vendor string
bytes, then `opus_tags.extend(&[0])` — a SINGLE zero byte. The vendor string
(`format!("ogg-opus {}", VER)`) is a parameter. -/
def opusTags (vendor : List Nat) : List Nat :=
  opusTagsMagic ++ writeU32LE vendor.length ++ vendor ++ [0]

/-- Modelled from the spec (§4.6 of the specification document), for
comparison with `opusTags`: the comment-header payload ends with a 4-byte
little-endian user-comment count equal to `0`. -/
def opusTagsSpec (vendor : List Nat) : List Nat :=
  opusTagsMagic ++ writeU32LE vendor.length ++ vendor ++ writeU32LE 0

/-- The full sequence of `write_packet` calls performed by
`encode::<S_PS, NUM_CHANNELS>` in `encode.rs`: the head page, the tags page
(both with granule `0`, ending their page), then one packet per input frame
with granule `granule::<S_PS>(calc_samples(i + 1))`, the last marked
end-of-stream. -/
def encodeWrites (sps numChannels : Nat) (vendor : List Nat)
    (packets : List (List Nat)) : List PacketWrite :=
  ⟨opusHead sps numChannels, .endPage, 0⟩ ::
  ⟨opusTags vendor, .endPage, 0⟩ ::
  (List.range packets.length).map (fun i =>
    ⟨packets.getD i [], is_end_of_stream (decide (i = packets.length - 1)),
      dataPacketGranule sps i⟩)

/-! ## Definitions: the `circular_queue::CircularQueue` collaborator

A bounded FIFO with drop-oldest overwrite. `data` holds the elements in
ascending insertion order (oldest first), which is the order `asc_iter`
yields. -/

structure CircularQueue (α : Type) where
  capacity : Nat
  data : List α
deriving Repr, DecidableEq

/-- `CircularQueue::with_capacity`. -/
def CircularQueue.withCapacity (α : Type) (cap : Nat) : CircularQueue α :=
  ⟨cap, []⟩

/-- `CircularQueue::push`: appends at the newest end; when the queue is full
the oldest element is overwritten; a zero-capacity queue stores nothing. -/
def CircularQueue.push {α : Type} (q : CircularQueue α) (x : α) : CircularQueue α :=
  if q.capacity = 0 then q
  else if q.data.length = q.capacity then ⟨q.capacity, q.data.tail ++ [x]⟩
  else ⟨q.capacity, q.data ++ [x]⟩

/-- `CircularQueue::len`. -/
def CircularQueue.len {α : Type} (q : CircularQueue α) : Nat := q.data.length

/-- `CircularQueue::asc_iter`: oldest to newest. -/
def CircularQueue.ascIter {α : Type} (q : CircularQueue α) : List α := q.data

/-! ## Definitions: `src/lookback.rs` / `src/receiver.rs` — mixing and the
mixer tick task -/

/-- `BUFFER_SIZE` in `lookback.rs` and `receiver.rs`:
`(1000 / 20) * 60 * 30`. -/
def BUFFER_SIZE : Nat := (1000 / 20) * 60 * 30

/-- `PACKET_DURATION` in `lookback.rs`/`receiver.rs`, in milliseconds. -/
def PACKET_DURATION_MS : Nat := 20

/-- `AUDIO_PACKET_SIZE` in `receiver.rs`. -/
def AUDIO_PACKET_SIZE : Nat := 1920

/-- An encoded Opus frame: a byte vector. -/
abbrev Frame := List Nat

/-- A decoded PCM buffer `[i16; 1920]` (`RawAudioPacket` in `receiver.rs`). -/
abbrev RawAudioPacket := Fin 1920 → Int

/-- `fn empty_raw_audio()` in `receiver.rs`: `[0i16; AUDIO_PACKET_SIZE]`. -/
def empty_raw_audio : RawAudioPacket := fun _ => 0

/-- `i16::saturating_add`: the exact sum clamped to
`[-32768, 32767]`. -/
def satAdd (a b : Int) : Int := max (-32768) (min 32767 (a + b))

/-- One iteration of the mixing loop body of `create_mixed_raw_buffer`:
`for i in 0..AUDIO_PACKET_SIZE { mix_buf[i] = mix_buf[i].saturating_add(packet[i]); }`. -/
def mixStep (acc p : RawAudioPacket) : RawAudioPacket :=
  fun i => satAdd (acc i) (p i)

/-- The pure fold performed by `create_mixed_raw_buffer` over the packets it
pops, in pop order, starting from `empty_raw_audio()`. -/
def mixFrame (packets : List RawAudioPacket) : RawAudioPacket :=
  packets.foldl mixStep empty_raw_audio

/-- The per-tick frame selection of `start_task_mix_packet_buffer`: when
`create_mixed_raw_buffer` yields no mix, the precomputed `empty_encoded`
silent frame is used and the encoder is not invoked; otherwise the mix is
encoded. -/
def tickFrame (silent : Frame) (enc : RawAudioPacket → Frame)
    (mix : Option RawAudioPacket) : Frame :=
  match mix with
  | none => silent
  | some m => enc m

/-- The lookback ring after `t` completed mixer ticks since startup: starting
from `CircularQueue::with_capacity(BUFFER_SIZE)`, each tick pushes exactly one
frame, `tickFrame` of that tick's mix result. -/
def lookbackTicks (silent : Frame) (enc : RawAudioPacket → Frame)
    (mixes : Nat → Option RawAudioPacket) : Nat → CircularQueue Frame
  | 0 => CircularQueue.withCapacity Frame BUFFER_SIZE
  | t + 1 => (lookbackTicks silent enc mixes t).push (tickFrame silent enc (mixes t))

/-- The trimming step of `drain_buffer`: given the snapshot (ascending
iteration of the ring) and an optional window, keep the slice
`[len.saturating_sub(window_ms / 20) ..]`; with no window keep everything.
`Nat` subtraction is `usize::saturating_sub`. -/
def drainTrim (packets : List Frame) (durationToDumpMs : Option Nat) : List Frame :=
  match durationToDumpMs with
  | none => packets
  | some ms => packets.drop (packets.length - ms / PACKET_DURATION_MS)

/-- The `encoded_vec` computation in the mixer loop of
`start_task_mix_packet_buffer` (`lookback.rs` lines 110–116, identically
`receiver.rs`): no mix yields the cached silent frame; a mix is encoded and
the result `.unwrap()`ed, so an encoder error aborts the task. -/
def lookbackTickResult (silent : Frame) (enc : RawAudioPacket → Except Unit Frame)
    (mix : Option RawAudioPacket) : Except Unit Frame :=
  match mix with
  | none => Except.ok silent
  | some m => enc m

/-! ## Definitions: `BufferedPacketSource` (`receiver.rs` lines 41–72)

`packet_buffer` is a `BinaryHeap` keyed by `Reverse(time)`, so `peek`/`pop`
yield the packet with the SMALLEST arrival time first. The heap is modelled
as a list sorted by ascending `time` (oldest first); `peek` inspects the
head. -/

/-- A `SortableAudioPacket`: a decoded PCM packet with its arrival instant
(milliseconds). -/
structure BufPacket where
  time : Int
  packet : RawAudioPacket

/-- Ascending arrival-time order: the heap invariant of the model. -/
def timeSorted (l : List BufPacket) : Prop :=
  l.Pairwise (fun a b => a.time ≤ b.time)

/-- `BufferedPacketSource::peek`: `None` when the oldest packet satisfies
`packet.time >= now - PACKET_DURATION * 2` (it is buffered for a later tick),
otherwise the oldest packet. -/
def bufPeek (buffer : List BufPacket) (now : Int) : Option BufPacket :=
  match buffer with
  | [] => none
  | p :: _ =>
    if now - (PACKET_DURATION_MS : Int) * 2 ≤ p.time then none else some p

/-- The `while let Some(sortable_packet) = self.pop(now)` loop of
`create_mixed_raw_buffer`: pop packets while the oldest is strictly older
than `now - 40 ms`, folding each into the accumulator with `mixStep`;
return the accumulator and the remaining buffer. -/
def mixLoop (now : Int) : List BufPacket → RawAudioPacket → RawAudioPacket × List BufPacket
  | [], acc => (acc, [])
  | p :: rest, acc =>
    if now - (PACKET_DURATION_MS : Int) * 2 ≤ p.time then (acc, p :: rest)
    else mixLoop now rest (mixStep acc p.packet)

/-- `BufferedPacketSource::create_mixed_raw_buffer`: early exit with no mix
when `peek` yields nothing; otherwise mix every poppable packet starting from
`empty_raw_audio()`. Returns the optional mix and the buffer it leaves
behind. -/
def createMixedRawBuffer (now : Int) (buffer : List BufPacket) :
    Option RawAudioPacket × List BufPacket :=
  match bufPeek buffer now with
  | none => (none, buffer)
  | some _ =>
    let r := mixLoop now buffer empty_raw_audio
    (some r.1, r.2)

/-! ## Definitions: `src/tts.rs` — the per-speaker rings -/

/-- `BUFFER_SIZE` in `tts.rs`: `(1000 / 20) * 60 * 2`. -/
def TTS_BUFFER_SIZE : Nat := (1000 / 20) * 60 * 2

/-- `PerUserSoundBuffer::encode_opus_packet` in `tts.rs`: encode when data is
present and the encoder succeeds; otherwise return the cached
`empty_encoded` silent frame. -/
def encodeOpusPacket (silent : Frame) (enc : RawAudioPacket → Except Unit Frame)
    (data : Option RawAudioPacket) : Frame :=
  match data with
  | some d =>
    match enc d with
    | Except.ok f => f
    | Except.error _ => silent
  | none => silent

/-- The `user_to_sound_packets` map of `PerUserSoundBuffer`, as an
association list from user id to that speaker's ring. -/
abbrev SpeakerRings := List (Nat × CircularQueue Frame)

/-- Map lookup (`HashMap::get`): the value at the first matching key. -/
def ringsFind (rs : SpeakerRings) (user : Nat) : Option (CircularQueue Frame) :=
  match rs with
  | [] => none
  | e :: rest => if e.1 = user then some e.2 else ringsFind rest user

/-- `self.user_to_sound_packets.entry(user).or_insert_with(|| CircularQueue::with_capacity(BUFFER_SIZE))`
followed by `buf.push(frame)`. -/
def ringsPush (rs : SpeakerRings) (user : Nat) (frame : Frame) : SpeakerRings :=
  match rs with
  | [] => [(user, (CircularQueue.withCapacity Frame TTS_BUFFER_SIZE).push frame)]
  | e :: rest =>
    if e.1 = user then (e.1, e.2.push frame) :: rest
    else e :: ringsPush rest user frame

/-- `PerUserSoundBuffer::push` in `tts.rs`: encode (or substitute silence) and
push into the speaker's ring, creating the ring on first use. -/
def perUserPush (rs : SpeakerRings) (silent : Frame)
    (enc : RawAudioPacket → Except Unit Frame) (user : Nat)
    (data : Option RawAudioPacket) : SpeakerRings :=
  ringsPush rs user (encodeOpusPacket silent enc data)

/-! ## Definitions: `src/receiver.rs` — the ingestion adapter (`act`) -/

/-- The `ssrc_to_user` `DashMap<u32, UserId>`, as an association list. -/
abbrev SsrcTable := List (Nat × Nat)

/-- `DashMap::get`: the value at the first matching key. -/
def tableLookup (t : SsrcTable) (ssrc : Nat) : Option Nat :=
  match t with
  | [] => none
  | e :: rest => if e.1 = ssrc then some e.2 else tableLookup rest ssrc

/-- `DashMap::insert`: replace the value when the key is present, otherwise
add the entry. -/
def tableInsert (t : SsrcTable) (ssrc user : Nat) : SsrcTable :=
  match t with
  | [] => [(ssrc, user)]
  | e :: rest =>
    if e.1 = ssrc then (ssrc, user) :: rest
    else e :: tableInsert rest ssrc user

/-- The `Ctx::SpeakingStateUpdate` arm of `act` in `receiver.rs`: when the
event carries a user id, `ssrc_to_user.insert(speaking.ssrc, user)`; nothing
else is touched. -/
def speakingStateUpdate (t : SsrcTable) (ssrc : Nat) (userId : Option Nat) : SsrcTable :=
  match userId with
  | some u => tableInsert t ssrc u
  | none => t

/-- `fn to_raw_audio_packet(data)` in `receiver.rs`: `try_into` an
`[i16; 1920]`, `Some` exactly when the length is 1920. -/
def toRawAudioPacket (data : List Int) : Option RawAudioPacket :=
  if h : data.length = 1920 then
    some (fun i => data.get ⟨i.val, by rw [h]; exact i.isLt⟩)
  else none

/-- The mutable state the `Ctx::VoiceTick` arm of `act` can touch for one
`speaking` entry: the mixer's buffered packet source (as the list of raw
packets handed to `add_sound_mux`, which feeds the lookback ring) and the
per-speaker rings. -/
structure IngestState where
  mux : List RawAudioPacket
  rings : SpeakerRings

/-- One `(ssrc, data)` iteration of the `for (ssrc, data) in &data.speaking`
loop in `act` (`receiver.rs` lines 171–187): resolve the ssrc; with no
mapping nothing happens at all; with a mapping, a present decoded frame is
length-checked — only a 1920-sample frame reaches `add_sound_mux` — and
`tts.push(user, packet)` runs with the checked packet (`None` on wrong
length); an absent frame yields `tts.push(user, None)`. -/
def processSpeakingEntry (table : SsrcTable) (silent : Frame)
    (enc : RawAudioPacket → Except Unit Frame) (st : IngestState)
    (ssrc : Nat) (decodedVoice : Option (List Int)) : IngestState :=
  match tableLookup table ssrc with
  | none => st
  | some user =>
    match decodedVoice with
    | some audio =>
      let packet := toRawAudioPacket audio
      let st1 : IngestState :=
        match packet with
        | some p => ⟨st.mux ++ [p], st.rings⟩
        | none => st
      ⟨st1.mux, perUserPush st1.rings silent enc user packet⟩
    | none => ⟨st.mux, perUserPush st.rings silent enc user none⟩

/-! ## Theorems -/

theorem encodeWrites_data_getD (sps numChannels : Nat) (vendor : List Nat)
    (packets : List (List Nat)) (i : Nat) (hi : i < packets.length) :
    (encodeWrites sps numChannels vendor packets).getD (i + 2) default =
      ⟨packets.getD i [], is_end_of_stream (decide (i = packets.length - 1)),
        dataPacketGranule sps i⟩ := by
  simp only [encodeWrites, List.getD, List.get?_cons_succ]
  rw [List.get?_map, List.get?_range hi]
  rfl

theorem dataPacketGranule_48000 (i : Nat) :
    dataPacketGranule 48000 i = (i + 1) * 960 := by
  show ((i + 1) * ((48000 * 20) / 1000) * 48000) / 48000 = (i + 1) * 960
  norm_num

/-- Claim C1: the packager assigns the data packet at zero-based index `i` the
granule position `((i + 1) * samples_per_frame * 48000) / sample_rate` with
`samples_per_frame = (sample_rate * 20) / 1000`; at 48 kHz every data packet's
granule equals `(i + 1) * 960`, so granules are strictly increasing in the
frame index and every data granule is a positive multiple of `960`. -/
theorem c1_granule_positions (sps numChannels : Nat) (vendor : List Nat)
    (packets : List (List Nat)) (i j : Nat)
    (hi : i < packets.length) (hj : j < packets.length) (hij : i < j) :
    ((encodeWrites sps numChannels vendor packets).getD (i + 2) default).granulePos
        = ((i + 1) * ((sps * 20) / 1000) * 48000) / sps
      ∧ (sps = 48000 →
        ((encodeWrites sps numChannels vendor packets).getD (i + 2) default).granulePos
            = (i + 1) * 960
        ∧ ((encodeWrites sps numChannels vendor packets).getD (i + 2) default).granulePos
            < ((encodeWrites sps numChannels vendor packets).getD (j + 2) default).granulePos
        ∧ 0 < ((encodeWrites sps numChannels vendor packets).getD (i + 2) default).granulePos
        ∧ 960 ∣ ((encodeWrites sps numChannels vendor packets).getD (i + 2) default).granulePos) := by
  rw [encodeWrites_data_getD sps numChannels vendor packets i hi,
    encodeWrites_data_getD sps numChannels vendor packets j hj]
  dsimp only
  refine ⟨rfl, ?_⟩
  rintro rfl
  rw [dataPacketGranule_48000 i, dataPacketGranule_48000 j]
  refine ⟨rfl, ?_, ?_, ?_⟩
  · exact Nat.mul_lt_mul_of_lt_of_le (by omega) (le_refl 960) (by norm_num)
  · exact Nat.mul_pos (Nat.succ_pos i) (by norm_num)
  · exact dvd_mul_left 960 (i + 1)

/-- Witness for C1 at `sps = 48000`, two one-byte frames, `i = 0`, `j = 1`. -/
theorem c1_granule_positions_witness :
    (0 : Nat) < ([[1], [2]] : List (List Nat)).length
    ∧ (1 : Nat) < ([[1], [2]] : List (List Nat)).length
    ∧ (0 : Nat) < 1
    ∧ (((encodeWrites 48000 2 [111] [[1], [2]]).getD 2 default).granulePos
          = ((0 + 1) * ((48000 * 20) / 1000) * 48000) / 48000
        ∧ (48000 = 48000 →
          ((encodeWrites 48000 2 [111] [[1], [2]]).getD 2 default).granulePos = (0 + 1) * 960
          ∧ ((encodeWrites 48000 2 [111] [[1], [2]]).getD 2 default).granulePos
              < ((encodeWrites 48000 2 [111] [[1], [2]]).getD 3 default).granulePos
          ∧ 0 < ((encodeWrites 48000 2 [111] [[1], [2]]).getD 2 default).granulePos
          ∧ 960 ∣ ((encodeWrites 48000 2 [111] [[1], [2]]).getD 2 default).granulePos)) :=
  ⟨by norm_num, by norm_num, by norm_num,
    c1_granule_positions 48000 2 [111] [[1], [2]] 0 1 (by norm_num) (by norm_num)
      (by norm_num)⟩

/-- Claim C2 (code bug): the `encode.rs` comment-header payload ends the
user-comment count as a SINGLE zero byte (`opus_tags.extend(&[0])`), not as
the 4-byte little-endian `0` the claim states. Evaluated at the vendor string
`"ogg-opus 0.1.0"`: the code's payload is three bytes shorter than the claimed
form and differs from it. -/
theorem c2_opus_tags_code_bug :
    opusTags [111, 103, 103, 45, 111, 112, 117, 115, 32, 48, 46, 49, 46, 48]
        = [79, 112, 117, 115, 84, 97, 103, 115] ++ [14, 0, 0, 0]
          ++ [111, 103, 103, 45, 111, 112, 117, 115, 32, 48, 46, 49, 46, 48] ++ [0]
    ∧ opusTags [111, 103, 103, 45, 111, 112, 117, 115, 32, 48, 46, 49, 46, 48]
        ≠ opusTagsSpec [111, 103, 103, 45, 111, 112, 117, 115, 32, 48, 46, 49, 46, 48]
    ∧ (opusTags [111, 103, 103, 45, 111, 112, 117, 115, 32, 48, 46, 49, 46, 48]).length + 3
        = (opusTagsSpec [111, 103, 103, 45, 111, 112, 117, 115, 32, 48, 46, 49, 46, 48]).length := by
  refine ⟨rfl, ?_, rfl⟩
  decide

theorem CircularQueue.len_push {α : Type} (q : CircularQueue α) (x : α)
    (hle : q.len ≤ q.capacity) (hcap : q.capacity ≠ 0) :
    (q.push x).len = min (q.len + 1) q.capacity := by
  unfold CircularQueue.push
  rw [if_neg hcap]
  by_cases h : q.data.length = q.capacity
  · rw [if_pos h]
    simp only [CircularQueue.len, List.length_append, List.length_tail, h,
      List.length_cons, List.length_nil]
    omega
  · rw [if_neg h]
    simp only [CircularQueue.len, List.length_append, List.length_cons,
      List.length_nil]
    simp only [CircularQueue.len] at hle
    omega

theorem lookbackTicks_capacity (silent : Frame) (enc : RawAudioPacket → Frame)
    (mixes : Nat → Option RawAudioPacket) (t : Nat) :
    (lookbackTicks silent enc mixes t).capacity = BUFFER_SIZE := by
  induction t with
  | zero => rfl
  | succ t ih =>
    unfold lookbackTicks CircularQueue.push
    by_cases h0 : (lookbackTicks silent enc mixes t).capacity = 0
    · rw [if_pos h0]; exact ih
    · rw [if_neg h0]
      by_cases h1 : (lookbackTicks silent enc mixes t).data.length
          = (lookbackTicks silent enc mixes t).capacity
      · rw [if_pos h1]; exact ih
      · rw [if_neg h1]; exact ih

/-- Claim C3: after `t` completed mixer ticks the lookback ring's length is
`min t 90000` (so exactly one frame is appended per tick), `BUFFER_SIZE`
equals `90000`, and an empty tick appends the precomputed silent frame
independently of the encoder (the encoder is not consulted). -/
theorem c3_lookback_ring_length (silent : Frame) (enc : RawAudioPacket → Frame)
    (mixes : Nat → Option RawAudioPacket) (t : Nat) :
    (lookbackTicks silent enc mixes t).len = min t 90000
    ∧ BUFFER_SIZE = 90000
    ∧ ∀ e₁ e₂ : RawAudioPacket → Frame,
        tickFrame silent e₁ none = silent
        ∧ tickFrame silent e₁ none = tickFrame silent e₂ none := by
  refine ⟨?_, rfl, fun e₁ e₂ => ⟨rfl, rfl⟩⟩
  induction t with
  | zero => simp [lookbackTicks, CircularQueue.withCapacity, CircularQueue.len]
  | succ t ih =>
    have hcap := lookbackTicks_capacity silent enc mixes t
    have hlen : (lookbackTicks silent enc mixes t).len ≤ BUFFER_SIZE := by
      rw [ih]
      exact le_trans (Nat.min_le_right t 90000) (by norm_num [BUFFER_SIZE])
    unfold lookbackTicks
    rw [CircularQueue.len_push _ _ (hcap ▸ hlen) (hcap ▸ (by norm_num [BUFFER_SIZE])), ih,
      hcap]
    simp only [BUFFER_SIZE]
    omega

/-- Claim C4: a drain with window `w` ms packages exactly the final
`⌊w / 20⌋` frames of the snapshot in chronological order (the suffix from
index `len − ⌊w / 20⌋`, of length `min (⌊w / 20⌋) len`); if `⌊w / 20⌋`
reaches the number of frames, all frames are retained; with no window all
frames are retained. -/
theorem c4_drain_trim (packets : List Frame) (ms : Nat) :
    drainTrim packets none = packets
    ∧ drainTrim packets (some ms) = packets.drop (packets.length - ms / 20)
    ∧ (drainTrim packets (some ms)).length = min (ms / 20) packets.length
    ∧ (packets.length ≤ ms / 20 → drainTrim packets (some ms) = packets) := by
  refine ⟨rfl, rfl, ?_, fun h => ?_⟩
  · show (packets.drop (packets.length - ms / PACKET_DURATION_MS)).length = _
    rw [List.length_drop]
    simp only [PACKET_DURATION_MS]
    omega
  · show packets.drop (packets.length - ms / PACKET_DURATION_MS) = packets
    simp only [PACKET_DURATION_MS]
    rw [Nat.sub_eq_zero_of_le h, List.drop_zero]

/-- Witness for C4: a 3-frame snapshot with a 45 ms window keeps the final 2
frames; a 1000 ms window (exceeding occupancy) keeps all 3; no window keeps
all 3. -/
theorem c4_drain_trim_witness :
    drainTrim [[1], [2], [3]] none = [[1], [2], [3]]
    ∧ drainTrim [[1], [2], [3]] (some 45) = [[2], [3]]
    ∧ drainTrim [[1], [2], [3]] (some 1000) = [[1], [2], [3]] := by
  have h45 := c4_drain_trim [[1], [2], [3]] 45
  have h1000 := c4_drain_trim [[1], [2], [3]] 1000
  refine ⟨h45.1, ?_, h1000.2.2.2 (by norm_num)⟩
  rw [h45.2.1]
  decide

/-- Counterexample to claim C5: on the mixer (lookback) path a rejected
encoding is NOT replaced by the silent frame — the `.unwrap()` propagates the
failure (panicking the task). With the concrete silent frame `[42]`, an
all-zero mix and an encoder that rejects every input, the tick result is the
error, not `Except.ok [42]`. -/
theorem c5_unwrap_counterexample :
    lookbackTickResult [42] (fun _ => Except.error ()) (some (fun _ => 0))
        = Except.error ()
    ∧ lookbackTickResult [42] (fun _ => Except.error ()) (some (fun _ => 0))
        ≠ Except.ok [42] := by
  exact ⟨rfl, by simp [lookbackTickResult]⟩

/-- Claim C5 as amended: only the per-speaker path substitutes the
precomputed silent frame when the Opus encoder rejects a frame; the mixer's
lookback path instead propagates the failure (the `.unwrap()` panics the
mixer task). -/
theorem c5_amended (silent : Frame) (enc : RawAudioPacket → Except Unit Frame)
    (d : RawAudioPacket) (h : enc d = Except.error ()) :
    encodeOpusPacket silent enc (some d) = silent
    ∧ lookbackTickResult silent enc (some d) = Except.error () := by
  constructor
  · show (match enc d with
      | Except.ok f => f
      | Except.error _ => silent) = silent
    rw [h]
  · show enc d = Except.error ()
    exact h

/-- Witness for the amended C5 at a concrete always-failing encoder. -/
theorem c5_amended_witness :
    (fun _ : RawAudioPacket => (Except.error () : Except Unit Frame)) (fun _ => 0)
        = Except.error ()
    ∧ (encodeOpusPacket [42] (fun _ => Except.error ()) (some (fun _ => 0)) = [42]
      ∧ lookbackTickResult [42] (fun _ => Except.error ()) (some (fun _ => 0))
          = Except.error ()) :=
  ⟨rfl, c5_amended [42] (fun _ => Except.error ()) (fun _ => 0) rfl⟩

theorem ringsFind_ringsPush_self (rs : SpeakerRings) (user : Nat) (frame : Frame) :
    ringsFind (ringsPush rs user frame) user
      = some (((ringsFind rs user).getD
          (CircularQueue.withCapacity Frame TTS_BUFFER_SIZE)).push frame) := by
  induction rs with
  | nil => simp [ringsFind, ringsPush]
  | cons e rest ih =>
    by_cases h : e.1 = user
    · simp [ringsFind, ringsPush, h]
    · simp [ringsFind, ringsPush, h, ih]

theorem ringsFind_ringsPush_ne (rs : SpeakerRings) (user v : Nat) (frame : Frame)
    (hv : v ≠ user) :
    ringsFind (ringsPush rs user frame) v = ringsFind rs v := by
  induction rs with
  | nil => simp [ringsFind, ringsPush, Ne.symm hv]
  | cons e rest ih =>
    by_cases h : e.1 = user
    · simp [ringsFind, ringsPush, h, Ne.symm hv]
    · by_cases h2 : e.1 = v
      · simp [ringsFind, ringsPush, h, h2, hv]
      · simp [ringsFind, ringsPush, h, h2, ih]

theorem toRawAudioPacket_wrong_length (audio : List Int) (h : audio.length ≠ 1920) :
    toRawAudioPacket audio = none := by
  unfold toRawAudioPacket
  exact dif_neg h

theorem processSpeakingEntry_wrong_length (table : SsrcTable) (silent : Frame)
    (enc : RawAudioPacket → Except Unit Frame) (st : IngestState)
    (ssrc user : Nat) (audio : List Int)
    (hu : tableLookup table ssrc = some user) (hlen : audio.length ≠ 1920) :
    processSpeakingEntry table silent enc st ssrc (some audio)
      = ⟨st.mux, perUserPush st.rings silent enc user none⟩ := by
  have hnone := toRawAudioPacket_wrong_length audio hlen
  unfold processSpeakingEntry
  rw [hu]
  dsimp only
  rw [hnone]

/-- Counterexample to claim C6: with ssrc 5 mapped to user 9 and a decoded
frame of length 1919, the ingestion DOES modify a ring — `tts.push(user, None)`
runs and the precomputed silent frame `[42]` is pushed into speaker 9's ring
(created with capacity 6000), so the rings are not left unchanged. The mixer
buffer is unchanged, as the claim says. -/
theorem c6_wrong_length_counterexample :
    (List.replicate 1919 (0 : Int)).length ≠ 1920
    ∧ (processSpeakingEntry [(5, 9)] [42] (fun _ => Except.error ())
        ⟨[], []⟩ 5 (some (List.replicate 1919 0))).rings
        = [(9, ⟨6000, [[42]]⟩)]
    ∧ ([(9, (⟨6000, [[42]]⟩ : CircularQueue Frame))] : SpeakerRings) ≠ []
    ∧ (processSpeakingEntry [(5, 9)] [42] (fun _ => Except.error ())
        ⟨[], []⟩ 5 (some (List.replicate 1919 0))).mux = [] := by
  have hlen : (List.replicate 1919 (0 : Int)).length ≠ 1920 := by
    simp only [List.length_replicate]
    norm_num
  have hstep := processSpeakingEntry_wrong_length [(5, 9)] [42]
    (fun _ => Except.error ()) ⟨[], []⟩ 5 9 (List.replicate 1919 0) rfl hlen
  refine ⟨hlen, ?_, by simp, ?_⟩
  · rw [hstep]
    rfl
  · rw [hstep]

/-- Claim C6 as amended: a decoded frame of length other than 1920 from a
mapped speaker is not forwarded to the mixer (the lookback mix input is
unchanged), but the precomputed silent frame IS pushed into that speaker's
ring; all other speakers' rings are unchanged. -/
theorem c6_amended (table : SsrcTable) (silent : Frame)
    (enc : RawAudioPacket → Except Unit Frame) (st : IngestState)
    (ssrc user : Nat) (audio : List Int)
    (hu : tableLookup table ssrc = some user) (hlen : audio.length ≠ 1920) :
    (processSpeakingEntry table silent enc st ssrc (some audio)).mux = st.mux
    ∧ (processSpeakingEntry table silent enc st ssrc (some audio)).rings
        = ringsPush st.rings user silent
    ∧ ringsFind (ringsPush st.rings user silent) user
        = some (((ringsFind st.rings user).getD
            (CircularQueue.withCapacity Frame TTS_BUFFER_SIZE)).push silent)
    ∧ ∀ v, v ≠ user →
        ringsFind (ringsPush st.rings user silent) v = ringsFind st.rings v := by
  have hstep := processSpeakingEntry_wrong_length table silent enc st ssrc user
    audio hu hlen
  rw [hstep]
  exact ⟨rfl, rfl, ringsFind_ringsPush_self st.rings user silent,
    fun v hv => ringsFind_ringsPush_ne st.rings user v silent hv⟩

/-- Witness for the amended C6: ssrc 5 maps to user 9, frame length 1919. -/
theorem c6_amended_witness :
    tableLookup [(5, 9)] 5 = some 9
    ∧ (List.replicate 1919 (0 : Int)).length ≠ 1920
    ∧ ((processSpeakingEntry [(5, 9)] [42] (fun _ => Except.ok [7])
          ⟨[], []⟩ 5 (some (List.replicate 1919 0))).mux = ([] : List RawAudioPacket)
      ∧ (processSpeakingEntry [(5, 9)] [42] (fun _ => Except.ok [7])
          ⟨[], []⟩ 5 (some (List.replicate 1919 0))).rings = ringsPush [] 9 [42]
      ∧ ringsFind (ringsPush [] 9 [42]) 9
          = some (((ringsFind [] 9).getD
              (CircularQueue.withCapacity Frame TTS_BUFFER_SIZE)).push [42])
      ∧ ∀ v, v ≠ 9 → ringsFind (ringsPush [] 9 [42]) v = ringsFind [] v) :=
  ⟨rfl, by simp only [List.length_replicate]; norm_num,
    c6_amended [(5, 9)] [42] (fun _ => Except.ok [7]) ⟨[], []⟩ 5 9
      (List.replicate 1919 0) rfl (by simp only [List.length_replicate]; norm_num)⟩

theorem tableLookup_tableInsert_self (t : SsrcTable) (ssrc user : Nat) :
    tableLookup (tableInsert t ssrc user) ssrc = some user := by
  induction t with
  | nil => simp [tableInsert, tableLookup]
  | cons e rest ih =>
    by_cases h : e.1 = ssrc
    · simp [tableInsert, tableLookup, h]
    · simp [tableInsert, tableLookup, h, ih]

theorem tableLookup_tableInsert_ne (t : SsrcTable) (ssrc user s : Nat)
    (hs : s ≠ ssrc) :
    tableLookup (tableInsert t ssrc user) s = tableLookup t s := by
  induction t with
  | nil => simp [tableInsert, tableLookup, Ne.symm hs]
  | cons e rest ih =>
    by_cases h : e.1 = ssrc
    · simp [tableInsert, tableLookup, h, Ne.symm hs]
    · by_cases h2 : e.1 = s
      · simp [tableInsert, tableLookup, h, h2, hs]
      · simp [tableInsert, tableLookup, h, h2, ih]

/-- Counterexample to claim C7: the `SpeakingStateUpdate` arm only calls
`ssrc_to_user.insert(speaking.ssrc, user)` and never removes the user's old
ssrc entry. Remapping user 7 from ssrc 1 to ssrc 2 leaves the table as
`[(1, 7), (2, 7)]`, and a frame arriving on ssrc 1 still resolves to
user 7 — not to an unknown speaker as the claim states. -/
theorem c7_no_removal_counterexample :
    tableLookup [(1, 7)] 1 = some 7
    ∧ speakingStateUpdate [(1, 7)] 2 (some 7) = [(1, 7), (2, 7)]
    ∧ tableLookup (speakingStateUpdate [(1, 7)] 2 (some 7)) 1 = some 7
    ∧ tableLookup (speakingStateUpdate [(1, 7)] 2 (some 7)) 1 ≠ none :=
  ⟨rfl, rfl, rfl, fun h => Option.noConfusion h⟩

/-- Claim C7 as amended: a speaking-state update that remaps a user from
ssrc `A` to a new ssrc `B` only inserts the `B` entry; the `A` entry is NOT
removed, so frames subsequently arriving on ssrc `A` are still attributed to
that user. -/
theorem c7_amended (table : SsrcTable) (a b u : Nat)
    (h : tableLookup table a = some u) (hab : a ≠ b) :
    tableLookup (speakingStateUpdate table b (some u)) a = some u
    ∧ tableLookup (speakingStateUpdate table b (some u)) b = some u := by
  constructor
  · show tableLookup (tableInsert table b u) a = some u
    rw [tableLookup_tableInsert_ne table b u a hab]
    exact h
  · exact tableLookup_tableInsert_self table b u

/-- Witness for the amended C7: remap user 7 from ssrc 1 to ssrc 2. -/
theorem c7_amended_witness :
    tableLookup [(1, 7)] 1 = some 7
    ∧ (1 : Nat) ≠ 2
    ∧ (tableLookup (speakingStateUpdate [(1, 7)] 2 (some 7)) 1 = some 7
      ∧ tableLookup (speakingStateUpdate [(1, 7)] 2 (some 7)) 2 = some 7) :=
  ⟨rfl, by norm_num, c7_amended [(1, 7)] 1 2 7 rfl (by norm_num)⟩

/-- Counterexample to claim C8: with an empty ssrc-to-user table, a
well-formed 1920-sample decoded frame on ssrc 5 is NOT forwarded to the
mixer: the whole `VoiceTick` body for that entry is guarded by
`if let Some(user) = self.ssrc_to_user.get(ssrc)`, so the state — including
the mixer's packet buffer feeding the lookback ring — is completely
unchanged. -/
theorem c8_unknown_ssrc_counterexample :
    tableLookup ([] : SsrcTable) 5 = none
    ∧ (List.replicate 1920 (0 : Int)).length = 1920
    ∧ processSpeakingEntry [] [42] (fun _ => Except.ok [7]) ⟨[], []⟩ 5
        (some (List.replicate 1920 0)) = ⟨[], []⟩
    ∧ (processSpeakingEntry [] [42] (fun _ => Except.ok [7]) ⟨[], []⟩ 5
        (some (List.replicate 1920 0))).mux = [] :=
  ⟨rfl, by simp only [List.length_replicate], rfl, rfl⟩

/-- Claim C8 as amended: a tick entry whose ssrc has no mapping in the
ssrc-to-user table does nothing at all — the frame is neither forwarded to
the mixer (so it cannot contribute to the lookback mix) nor pushed into any
per-speaker ring. -/
theorem c8_amended (table : SsrcTable) (silent : Frame)
    (enc : RawAudioPacket → Except Unit Frame) (st : IngestState)
    (ssrc : Nat) (decodedVoice : Option (List Int))
    (h : tableLookup table ssrc = none) :
    processSpeakingEntry table silent enc st ssrc decodedVoice = st := by
  unfold processSpeakingEntry
  rw [h]

/-- Witness for the amended C8 on the empty table. -/
theorem c8_amended_witness :
    tableLookup ([] : SsrcTable) 6 = none
    ∧ processSpeakingEntry [] [42] (fun _ => Except.ok [7]) ⟨[], []⟩ 6
        (some (List.replicate 1920 0)) = ⟨[], []⟩ :=
  ⟨rfl, c8_amended [] [42] (fun _ => Except.ok [7]) ⟨[], []⟩ 6
    (some (List.replicate 1920 0)) rfl⟩

/-- Counterexample to claim C9: the saturating per-sample fold is NOT
order-independent. Folding the constant frames `32767, 1, -1` in that order
gives `32766` at every sample, while the permuted order `32767, -1, 1`
gives `32767`: the first order saturates at the intermediate step and the
second does not. -/
theorem c9_fold_order_counterexample :
    List.Perm
        [(fun _ => 32767 : RawAudioPacket), fun _ => 1, fun _ => -1]
        [(fun _ => 32767 : RawAudioPacket), fun _ => -1, fun _ => 1]
    ∧ mixFrame [(fun _ => 32767 : RawAudioPacket), fun _ => 1, fun _ => -1] 0 = 32766
    ∧ mixFrame [(fun _ => 32767 : RawAudioPacket), fun _ => -1, fun _ => 1] 0 = 32767
    ∧ mixFrame [(fun _ => 32767 : RawAudioPacket), fun _ => 1, fun _ => -1]
        ≠ mixFrame [(fun _ => 32767 : RawAudioPacket), fun _ => -1, fun _ => 1] := by
  refine ⟨List.Perm.cons _ (List.Perm.swap _ _ _), ?_, ?_, ?_⟩
  · norm_num [mixFrame, mixStep, empty_raw_audio, satAdd]
  · norm_num [mixFrame, mixStep, empty_raw_audio, satAdd]
  · intro heq
    have h0 := congrFun heq 0
    norm_num [mixFrame, mixStep, empty_raw_audio, satAdd] at h0

theorem satAdd_comm (a b : Int) : satAdd a b = satAdd b a := by
  unfold satAdd
  rw [Int.add_comm]

theorem satAdd_zero_left (x : Int) (h1 : -32768 ≤ x) (h2 : x ≤ 32767) :
    satAdd 0 x = x := by
  unfold satAdd
  rw [Int.zero_add, min_eq_right h2, max_eq_right h1]

/-- Claim C9 as amended: saturating `i16` addition is commutative, so the
mix of TWO frames is independent of the fold order; but saturating addition
is not associative, so for three or more frames the fold order can change
the mixed value once an intermediate sum saturates (see the counterexample
`32767, 1, -1` versus `32767, -1, 1`). -/
theorem c9_amended (p q : RawAudioPacket)
    (hp : ∀ i, -32768 ≤ p i ∧ p i ≤ 32767)
    (hq : ∀ i, -32768 ≤ q i ∧ q i ≤ 32767) :
    (∀ a b : Int, satAdd a b = satAdd b a)
    ∧ mixFrame [p, q] = mixFrame [q, p] := by
  refine ⟨satAdd_comm, funext fun i => ?_⟩
  show satAdd (satAdd (empty_raw_audio i) (p i)) (q i)
      = satAdd (satAdd (empty_raw_audio i) (q i)) (p i)
  show satAdd (satAdd 0 (p i)) (q i) = satAdd (satAdd 0 (q i)) (p i)
  rw [satAdd_zero_left (p i) (hp i).1 (hp i).2,
    satAdd_zero_left (q i) (hq i).1 (hq i).2, satAdd_comm]

/-- Witness for the amended C9 with the constant frames `100` and `200`. -/
theorem c9_amended_witness :
    (∀ i : Fin 1920, -32768 ≤ (fun _ => 100 : RawAudioPacket) i
        ∧ (fun _ => 100 : RawAudioPacket) i ≤ 32767)
    ∧ (∀ i : Fin 1920, -32768 ≤ (fun _ => 200 : RawAudioPacket) i
        ∧ (fun _ => 200 : RawAudioPacket) i ≤ 32767)
    ∧ ((∀ a b : Int, satAdd a b = satAdd b a)
      ∧ mixFrame [(fun _ => 100 : RawAudioPacket), fun _ => 200]
          = mixFrame [(fun _ => 200 : RawAudioPacket), fun _ => 100]) :=
  ⟨fun i => by norm_num, fun i => by norm_num,
    c9_amended (fun _ => 100) (fun _ => 200)
      (fun i => by norm_num) (fun i => by norm_num)⟩

theorem mixLoop_eq (now : Int) (l : List BufPacket) (acc : RawAudioPacket) :
    mixLoop now l acc =
      ((l.takeWhile fun p =>
          decide (p.time < now - (PACKET_DURATION_MS : Int) * 2)).foldl
          (fun a bp => mixStep a bp.packet) acc,
        l.dropWhile fun p =>
          decide (p.time < now - (PACKET_DURATION_MS : Int) * 2)) := by
  induction l generalizing acc with
  | nil => rfl
  | cons p rest ih =>
    by_cases h : now - (PACKET_DURATION_MS : Int) * 2 ≤ p.time
    · have hd : decide (p.time < now - (PACKET_DURATION_MS : Int) * 2) = false := by
        simp only [decide_eq_false_iff_not, not_lt]
        exact h
      unfold mixLoop
      rw [if_pos h]
      simp [List.takeWhile_cons, List.dropWhile_cons, hd]
    · have hd : decide (p.time < now - (PACKET_DURATION_MS : Int) * 2) = true := by
        simp only [decide_eq_true_eq]
        exact not_le.mp h
      unfold mixLoop
      rw [if_neg h]
      simp [List.takeWhile_cons, List.dropWhile_cons, hd, ih]

/-- Claim C10: `create_mixed_raw_buffer` leaves exactly the packets from the
last two packet durations (40 ms) in the buffer — a packet is popped and
mixed only when its arrival time is strictly older than `now - 40 ms`; every
packet within that window stays buffered; the mix, when produced, folds
precisely the strictly-older packets in oldest-first order; and a tick in
which every buffered packet lies within the window yields no mix, so the
tick appends the precomputed silent frame. -/
theorem c10_buffered_packet_window (now : Int) (buf : List BufPacket)
    (hs : timeSorted buf) :
    (createMixedRawBuffer now buf).2
        = buf.dropWhile (fun p =>
            decide (p.time < now - (PACKET_DURATION_MS : Int) * 2))
    ∧ (∀ p ∈ buf, now - (PACKET_DURATION_MS : Int) * 2 ≤ p.time →
        p ∈ (createMixedRawBuffer now buf).2)
    ∧ (createMixedRawBuffer now buf).1
        = (if (buf.takeWhile (fun p =>
              decide (p.time < now - (PACKET_DURATION_MS : Int) * 2))).isEmpty
           then none
           else some ((buf.takeWhile (fun p =>
              decide (p.time < now - (PACKET_DURATION_MS : Int) * 2))).foldl
                (fun a bp => mixStep a bp.packet) empty_raw_audio))
    ∧ ((∀ p ∈ buf, now - (PACKET_DURATION_MS : Int) * 2 ≤ p.time) →
        ∀ (silent : Frame) (enc : RawAudioPacket → Frame),
          tickFrame silent enc (createMixedRawBuffer now buf).1 = silent) := by
  have hmem : ∀ q ∈ buf, now - (PACKET_DURATION_MS : Int) * 2 ≤ q.time →
      q ∈ buf.dropWhile (fun p =>
        decide (p.time < now - (PACKET_DURATION_MS : Int) * 2)) := by
    intro q hq hqt
    have hsplit := List.takeWhile_append_dropWhile
      (p := fun p => decide (p.time < now - (PACKET_DURATION_MS : Int) * 2)) (l := buf)
    rw [← hsplit] at hq
    rcases List.mem_append.mp hq with hq1 | hq2
    · exfalso
      have := List.mem_takeWhile_imp hq1
      simp only [decide_eq_true_eq] at this
      exact absurd hqt (not_le.mpr this)
    · exact hq2
  cases buf with
  | nil =>
    refine ⟨rfl, by simp, rfl, fun _ silent enc => rfl⟩
  | cons p rest =>
    by_cases h : now - (PACKET_DURATION_MS : Int) * 2 ≤ p.time
    · have hd : decide (p.time < now - (PACKET_DURATION_MS : Int) * 2) = false := by
        simp only [decide_eq_false_iff_not, not_lt]
        exact h
      have hpeek : bufPeek (p :: rest) now = none := by
        show (if now - (PACKET_DURATION_MS : Int) * 2 ≤ p.time
            then none else some p) = none
        rw [if_pos h]
      have hres : createMixedRawBuffer now (p :: rest) = (none, p :: rest) := by
        unfold createMixedRawBuffer
        rw [hpeek]
      rw [hres]
      refine ⟨?_, ?_, ?_, fun _ silent enc => rfl⟩
      · simp [List.dropWhile_cons, hd]
      · intro q hq _
        exact hq
      · simp [List.takeWhile_cons, hd]
    · have hd : decide (p.time < now - (PACKET_DURATION_MS : Int) * 2) = true := by
        simp only [decide_eq_true_eq]
        exact not_le.mp h
      have hpeek : bufPeek (p :: rest) now = some p := by
        show (if now - (PACKET_DURATION_MS : Int) * 2 ≤ p.time
            then none else some p) = some p
        rw [if_neg h]
      have hres : createMixedRawBuffer now (p :: rest)
          = (some (mixLoop now (p :: rest) empty_raw_audio).1,
             (mixLoop now (p :: rest) empty_raw_audio).2) := by
        unfold createMixedRawBuffer
        rw [hpeek]
      rw [hres, mixLoop_eq]
      refine ⟨rfl, ?_, ?_, ?_⟩
      · intro q hq hqt
        exact hmem q hq hqt
      · have : ((p :: rest).takeWhile (fun p =>
            decide (p.time < now - (PACKET_DURATION_MS : Int) * 2))).isEmpty = false := by
          simp [List.takeWhile_cons, hd]
        rw [this]
        simp
      · intro hall
        exact absurd (hall p (List.mem_cons_self p rest)) h

/-- Witness for C10: at `now = 100` with an old packet (time 10) and a recent
one (time 90, within the 40 ms window), the old one is mixed and the recent
one stays buffered. -/
theorem c10_buffered_packet_window_witness :
    timeSorted [⟨10, fun _ => 5⟩, ⟨90, fun _ => 7⟩]
    ∧ ((createMixedRawBuffer 100 [⟨10, fun _ => 5⟩, ⟨90, fun _ => 7⟩]).2
        = List.dropWhile (fun p =>
            decide (p.time < 100 - (PACKET_DURATION_MS : Int) * 2))
            [⟨10, fun _ => 5⟩, ⟨90, fun _ => 7⟩]
      ∧ (∀ p ∈ [(⟨10, fun _ => 5⟩ : BufPacket), ⟨90, fun _ => 7⟩],
          100 - (PACKET_DURATION_MS : Int) * 2 ≤ p.time →
          p ∈ (createMixedRawBuffer 100 [⟨10, fun _ => 5⟩, ⟨90, fun _ => 7⟩]).2)
      ∧ (createMixedRawBuffer 100 [⟨10, fun _ => 5⟩, ⟨90, fun _ => 7⟩]).1
          = (if (List.takeWhile (fun p =>
                decide (p.time < 100 - (PACKET_DURATION_MS : Int) * 2))
                [(⟨10, fun _ => 5⟩ : BufPacket), ⟨90, fun _ => 7⟩]).isEmpty
             then none
             else some ((List.takeWhile (fun p =>
                decide (p.time < 100 - (PACKET_DURATION_MS : Int) * 2))
                [(⟨10, fun _ => 5⟩ : BufPacket), ⟨90, fun _ => 7⟩]).foldl
                  (fun a bp => mixStep a bp.packet) empty_raw_audio))
      ∧ ((∀ p ∈ [(⟨10, fun _ => 5⟩ : BufPacket), ⟨90, fun _ => 7⟩],
            100 - (PACKET_DURATION_MS : Int) * 2 ≤ p.time) →
          ∀ (silent : Frame) (enc : RawAudioPacket → Frame),
            tickFrame silent enc
              (createMixedRawBuffer 100 [⟨10, fun _ => 5⟩, ⟨90, fun _ => 7⟩]).1
              = silent)) := by
  have hs : timeSorted [(⟨10, fun _ => 5⟩ : BufPacket), ⟨90, fun _ => 7⟩] := by
    simp [timeSorted, List.pairwise_cons]
  exact ⟨hs, c10_buffered_packet_window 100 [⟨10, fun _ => 5⟩, ⟨90, fun _ => 7⟩] hs⟩
